import Mathlib

/-!
Verification of the course-description scraping pipeline
(`src/degrees/teachings.rs`, `src/degrees/mod.rs`, `src/degrees/year.rs`,
`src/writer.rs`).

Strings are modelled as lists of characters (`Str`). Rust's `str::find`
returns a byte index while the `substring` crate counts characters; the two
agree on ASCII text, which covers every marker, pattern and concrete input
appearing below, so the model uses a single character-based index space.
Rust's `usize` subtraction is modelled by `usizeSub`: it panics on underflow
when overflow checks are enabled (the default debug profile), which we model
as `none`; with checks disabled it wraps modulo 2^64 and the wrapped bound is
then clamped by `substring`. Fallible Rust code (`Result`, panics) is
modelled with `Except`/`Option`; network calls are abstracted as oracle
functions passed in as parameters, so "no fetch happens" is expressed as
independence from the oracle.
-/

/-- Strings as character lists. -/
abbrev Str := List Char

/-- Character data of a string literal. -/
def str (s : String) : Str := s.data

/-- Model of Rust `str::find(pat)` specialised to scanning: index of the
first occurrence of `pat` in the remaining text, if any. Structural in the
haystack so that it reduces in the kernel. -/
def findFrom (pat : Str) : Str → Option Nat
  | [] => if pat.isEmpty then some 0 else none
  | c :: rest =>
    if pat.isPrefixOf (c :: rest) then some 0
    else (findFrom pat rest).map (fun n => n + 1)

/-- Rust `hay.find(pat)`: index of the first occurrence of `pat` in `hay`. -/
def rustFind (hay pat : Str) : Option Nat := findFrom pat hay

/-- Rust `hay.contains(pat)`. -/
def containsSub (hay pat : Str) : Bool := (rustFind hay pat).isSome

/-- The `substring` crate's `s.substring(a, b)`: the characters of `s` with
indices in `[a, b)`; empty when `b ≤ a`; out-of-range bounds are clamped. -/
def substringL (s : Str) (a b : Nat) : Str := (s.drop a).take (b - a)

/-- Rust `usize` subtraction `a - b`. Underflow is an arithmetic overflow:
a panic when overflow checks are enabled (the default debug profile),
modelled as `none`; with checks disabled the value wraps modulo 2^64. -/
def usizeSub (a b : Nat) : Option Nat := if b ≤ a then some (a - b) else none

/-- Rust `str::trim` (ASCII whitespace view). -/
def trimL (s : Str) : Str :=
  ((s.dropWhile Char.isWhitespace).reverse.dropWhile Char.isWhitespace).reverse

/-- Rust `str::split('\n')`: pieces between newline separators, keeping
empty pieces, as `split` does. -/
def splitNl : Str → List Str
  | [] => [[]]
  | c :: rest =>
    if c = '\n' then [] :: splitNl rest
    else
      match splitNl rest with
      | [] => [[c]]
      | h :: t => (c :: h) :: t

/-- Fuelled scanner for Rust `String::replace(pat, rep)`: replaces every
non-overlapping occurrence of `pat`, left to right. The fuel is only a
termination device; `replaceAll` supplies `s.length`, which is enough
because every recursive step consumes at least one character of the text
(all patterns used in this development are non-empty). -/
def replaceAllGo (pat rep : Str) : Nat → Str → Str
  | _, [] => []
  | 0, s => s
  | f + 1, c :: rest =>
    if !pat.isEmpty && pat.isPrefixOf (c :: rest) then
      rep ++ replaceAllGo pat rep f ((c :: rest).drop pat.length)
    else
      c :: replaceAllGo pat rep f rest

/-- Rust `s.replace(pat, rep)` for non-empty `pat`. -/
def replaceAll (s pat rep : Str) : Str := replaceAllGo pat rep s.length s

/-! ## `src/degrees/teachings.rs` -/

/-- The `DESC_END_MARKER` table (`teachings.rs` lines 16-21), as the ordered
association list it is built from. The Rust value is a `HashMap`, whose
iteration order is arbitrary; theorems that depend on iteration order
quantify over permutations of this list. -/
def DESC_END_MARKER : List (Str × Str) :=
  [(str "Numerical Computing", str "Teaching"),
   (str "History of Informatics", str "Office"),
   (str "*", str "Readings")]

/-- `DESC_END_MARKER.get("*")` (the `backup` closure's lookup): the marker
of the wildcard entry, if present. On an association list with unique keys
this is the `find?` below. -/
def lookupStar (table : List (Str × Str)) : Option Str :=
  (table.find? (fun p => p.1 = str "*")).map (fun p => p.2)

/-- Errors of the teaching-page scrape (`eyre` errors and panics of
`get_desc_teaching_page`). -/
inductive ScrapeErr where
  /-- A `reqwest` failure: invalid URL (no network contact) or transport
  error, from `get(url)?` / `.text()?`. -/
  | fetchFailed (e : Str)
  /-- `eyre!("Cannot get english url")`. -/
  | noEnglishUrl
  /-- `eyre!("Cannot parse teaching title")`. -/
  | noTitle
  /-- `eyre!("Cannot parse teaching description")`. -/
  | noDescription
  /-- `eyre!("No description end marker defined for this page content")`. -/
  | noEndMarker
  /-- The `usize` underflow of `f? - 2` (`teachings.rs` line 84): a panic
  under overflow checks. -/
  | subtractionOverflow
deriving DecidableEq

/-- The end-marker string the table selects for a title: the marker of the
first entry (in iteration order) whose pattern is a substring of the title,
otherwise the wildcard entry's marker (`teachings.rs` lines 65-78). -/
def selectedMarker (table : List (Str × Str)) (title : Str) : Option Str :=
  match table.find? (fun p => containsSub title p.1) with
  | some p => some p.2
  | none => lookupStar table

/-- The chosen end boundary `f` (`teachings.rs` lines 65-78): if some
entry's pattern matches the title, the index of that entry's marker in the
description, defaulting to the description's length when the marker is
absent; otherwise the `backup` closure, which looks up the wildcard marker
and yields its index only when it actually occurs (no default). -/
def chosenEnd (table : List (Str × Str)) (title desc : Str) : Option Nat :=
  match table.find? (fun p => containsSub title p.1) with
  | some p => some ((rustFind desc p.2).getD desc.length)
  | none => (lookupStar table).bind (fun m => rustFind desc m)

/-- The start boundary `i` (`teachings.rs` lines 62-64): index of the first
occurrence of `"Learning outcomes"`, defaulting to the description's
length. -/
def descStart (desc : Str) : Nat :=
  (rustFind desc (str "Learning outcomes")).getD desc.length

/-- Normalisation of the raw body (`teachings.rs` lines 86-89): split on
line breaks, trim each line, drop empty lines, rejoin with a blank-line
separator. -/
def normalizeBody (s : Str) : Str :=
  List.intercalate (str "\n\n")
    (((splitNl s).map trimL).filter (fun l => !l.isEmpty))

/-- The boundary extraction and normalisation core of
`get_desc_teaching_page` (`teachings.rs` lines 62-89), given the already
parsed title and description block. -/
def extractCore (table : List (Str × Str)) (title desc : Str) :
    Except ScrapeErr Str :=
  match chosenEnd table title desc with
  | none => .error .noEndMarker
  | some e =>
    match usizeSub e 2 with
    | none => .error .subtractionOverflow
    | some e2 => .ok (normalizeBody (substringL desc (descStart desc) e2))

deriving instance DecidableEq for Except

/-- The result of fetching and parsing an English teaching page: the text
of the first `div#u-content-intro>h1` element (title) and of the first
`div.description-text` element (description block), each `none` when the
selector matches nothing. -/
structure PageData where
  title : Option Str
  desc : Option Str
deriving DecidableEq

/-- `get_eng_url` (`teachings.rs` lines 25-34). The network call and the
`li.language-en` selection are abstracted by the oracle `fetchLang`, which
returns the inner HTML of the first matching element (`none` when the
selector matches nothing) or a fetch failure. An empty URL short-circuits
to `Ok("")` without consulting the oracle. -/
def get_eng_url (fetchLang : Str → Except Str (Option Str)) (url : Str) :
    Except ScrapeErr Str :=
  if url.isEmpty then .ok []
  else
    match fetchLang url with
    | .error e => .error (.fetchFailed e)
    | .ok none => .error .noEnglishUrl
    | .ok (some frag) => .ok frag

/-- The teaching-URL slicing of `get_desc_teaching_page` (`teachings.rs`
lines 38-41): substring from the first `"http"` (default index 0) up to the
first `'"'` after it (default index 0). -/
def teachingUrlOf (frag : Str) : Str :=
  let start := (rustFind frag (str "http")).getD 0
  let tmp := substringL frag start frag.length
  let e := (rustFind tmp [Char.ofNat 34]).getD 0
  substringL tmp 0 e

/-- `Nat.repr` as a character list, for `format!` interpolation of years. -/
def natStr (n : Nat) : Str := (Nat.repr n).data

/-- The `format!` call of `get_desc_teaching_page` (`teachings.rs` lines
90-100). -/
def formatTeaching (turl title slug : Str) (year : Nat) (filtered : Str) :
    Str :=
  str "\n== " ++ turl ++ str "[" ++ title ++ str "]\n\nlink:degree-" ++
    slug ++ str "-" ++ natStr year ++ str ".pdf[PDF], xref:degree-" ++
    slug ++ str "-" ++ natStr year ++ str ".adoc[ADOC].\n\n" ++
    trimL filtered

/-- `get_desc_teaching_page` (`teachings.rs` lines 36-101), with the two
network interactions abstracted: `fetchLang` as in `get_eng_url`, and
`fetchPage` for fetching the teaching URL and selecting title and
description. `fetchPage` applied to the empty URL models `get("")`, which
fails while parsing the URL, before any network contact. -/
def get_desc_teaching_page (fetchLang : Str → Except Str (Option Str))
    (fetchPage : Str → Except Str PageData)
    (slug : Str) (year : Nat) (url : Str) : Except ScrapeErr Str :=
  match get_eng_url fetchLang url with
  | .error e => .error e
  | .ok frag =>
    let turl := teachingUrlOf frag
    match fetchPage turl with
    | .error e => .error (.fetchFailed e)
    | .ok page =>
      match page.title with
      | none => .error .noTitle
      | some title =>
        match page.desc with
        | none => .error .noDescription
        | some full =>
          match extractCore DESC_END_MARKER title full with
          | .error e => .error e
          | .ok filtered => .ok (formatTeaching turl title slug year filtered)

/-! ## `src/degrees/mod.rs` -/

/-- `MISSING_TRANSLATIONS` (`mod.rs` lines 33-50): the ordered array of
translation-fixup rules. -/
def MISSING_TRANSLATIONS : List (Str × Str) :=
  [(str "BASI DI DATI", str "DATABASES"),
   (str "INTRODUZIONE ALL\x27APPRENDIMENTO AUTOMATICO",
    str "Introduction to machine learning"),
   (str "FONDAMENTI DI", str ""),
   (str "Learning outcomes", str "=== Learning outcomes"),
   (str "Teaching contents", str "=== Teaching contents")]

/-- `replace` (`mod.rs` lines 171-173): one substring replacement. -/
def replace (s : Str) (rule : Str × Str) : Str := replaceAll s rule.1 rule.2

/-- The left fold of `replace` over an ordered rule table, as performed by
`render_description` (`mod.rs` line 179): each rule acts on the cumulative
output of the previous one. -/
def applyRules (rules : List (Str × Str)) (s : Str) : Str :=
  rules.foldl replace s

/-- `render_description` (`mod.rs` lines 177-180). -/
def render_description (desc : Str) : Str :=
  applyRules MISSING_TRANSLATIONS (str "\n" ++ desc)

/-- The per-course failures reported by `render_course` (`mod.rs` lines
204-219): the missing-link warning when the title cell has no anchor, or
the cannot-get-description warning wrapping a `get_desc_teaching_page`
error. -/
inductive CourseFailure where
  | missingLink
  | cannotGetDescription (e : ScrapeErr)
deriving DecidableEq

/-- `render_course` (`mod.rs` lines 204-219) restricted to its
decision-making core: `a_el` is the optional `href` of the first anchor of
the title cell (`none` when there is no anchor). `scrape_link` (lines
183-187) maps a scrape error to the cannot-get-description warning and a
success through `render_description`. -/
def render_course (fetchLang : Str → Except Str (Option Str))
    (fetchPage : Str → Except Str PageData)
    (slug : Str) (year : Nat) (a_el : Option Str) :
    Except CourseFailure Str :=
  match a_el with
  | none => .error .missingLink
  | some url =>
    match get_desc_teaching_page fetchLang fetchPage slug year url with
    | .error e => .error (.cannotGetDescription e)
    | .ok s => .ok (render_description s)

/-- `current_academic_year` (`year.rs` lines 13-17) as a function of the
system clock's calendar year and 1-based month: the calendar year when the
month is September or later, the previous one otherwise. -/
def current_academic_year (year month : Nat) : Nat :=
  if 9 ≤ month then year else year - 1

/-- `YEARS_PER_DEGREE` (`mod.rs` line 24). -/
def YEARS_PER_DEGREE : Nat := 3

/-- A Rust half-open range `a..b` as a list. -/
def rustRange (a b : Nat) : List Nat := List.range' a (b - a)

/-- The years probed by `get_degree_structure_urls` (`mod.rs` lines
93-114): the half-open range from `previous_academic_year -
YEARS_PER_DEGREE` to `previous_academic_year`, where
`previous_academic_year = current_academic_year() - 1`. -/
def degreeStructureYears (year month : Nat) : List Nat :=
  let previous := current_academic_year year month - 1
  rustRange (previous - YEARS_PER_DEGREE) previous

/-- `name_to_level` (`mod.rs` lines 118-124). -/
def name_to_level (name : Str) : Str :=
  if containsSub name (str "Magistrale") || containsSub name (str "Master")
  then str "magistrale" else str "laurea"

/-- The alternatives of the slug regex `( (e|per il|in) )|Magistrale|Master`
(`mod.rs` line 135), in the regex crate's leftmost-first preference order.
Their first two characters are pairwise distinguishing, so at any text
position at most one alternative matches and the preference order is
immaterial. -/
def SLUG_PATTERNS : List Str :=
  [str " e ", str " per il ", str " in ", str "Magistrale", str "Master"]

/-- Fuelled scanner for `Regex::replace_all(name, "")` with the slug regex:
at each position, remove the first matching alternative and continue after
it, otherwise keep the character. Every alternative is non-empty, so a fuel
of `s.length` is enough. -/
def slugRemoveGo : Nat → Str → Str
  | _, [] => []
  | 0, s => s
  | f + 1, c :: rest =>
    match SLUG_PATTERNS.find? (fun p => p.isPrefixOf (c :: rest)) with
    | some p => slugRemoveGo f ((c :: rest).drop p.length)
    | none => c :: slugRemoveGo f rest

/-- `Regex::replace_all` of the slug regex with the empty replacement. -/
def slugRemove (s : Str) : Str := slugRemoveGo s.length s

/-- Rust `str::to_lowercase` (ASCII view). -/
def toLowercase (s : Str) : Str := s.map Char.toLower

/-- `to_lowercase_maybe` (`mod.rs` lines 127-129). -/
def to_lowercase_maybe (s : Str) (b : Bool) : Str :=
  if b then toLowercase s else s

/-- `name_and_code_to_slug` (`mod.rs` lines 133-144). -/
def name_and_code_to_slug (name code : Str) : Str :=
  replaceAll
    (to_lowercase_maybe (slugRemove name) (!(code = str "9254/000" : Bool)))
    (str " ")
    (if code = str "9063/000" then str "-" else str "")

/-- `Predegree` (`mod.rs` lines 55-65): a seed record. -/
structure Predegree where
  id : Str
  name : Str
  code : Str
deriving DecidableEq

/-- `Degree` (`mod.rs` lines 69-79). The `year_urls` map is carried as its
underlying entry list. -/
structure Degree where
  name : Str
  slug : Str
  year_urls : List (Nat × Str)
deriving DecidableEq

/-- `parse_degree` (`mod.rs` lines 148-161). The web scraping of
`get_degree_structure_urls` is abstracted by the oracle `fetch`, taking the
level and the unibo slug. -/
def parse_degree (fetch : Str → Str → List (Nat × Str)) (p : Predegree) :
    Option Degree :=
  if p.name.isEmpty || p.id.isEmpty || p.code.isEmpty then none
  else
    some { name := p.name, slug := p.id,
           year_urls :=
             fetch (name_to_level p.name)
               (name_and_code_to_slug p.name p.code) }

/-- `to_degrees` (`mod.rs` lines 166-168). -/
def to_degrees (fetch : Str → Str → List (Nat × Str))
    (predegrees : List Predegree) : List Degree :=
  predegrees.filterMap (parse_degree fetch)

/-! ## `src/writer.rs` -/

/-- The key order used by `entries.sort_by_key(|(k, _)| *k)`
(`writer.rs` line 54). -/
def keyLE (a b : Nat × Str) : Prop := a.1 ≤ b.1

instance : DecidableRel keyLE := fun a b => Nat.decLe a.1 b.1

instance : IsTotal (Nat × Str) keyLE := ⟨fun a b => Nat.le_total a.1 b.1⟩

instance : IsTrans (Nat × Str) keyLE := ⟨fun _ _ _ h h2 => Nat.le_trans h h2⟩

/-- `entries.sort_by_key(|(k, _)| *k)` (`writer.rs` lines 53-54): a stable
sort of the year map's entries by ascending year. -/
def sortByKey (l : List (Nat × Str)) : List (Nat × Str) :=
  List.insertionSort keyLE l

/-- The output file path of `write_year` (`writer.rs` line 34). -/
def yearFile (slug : Str) (year : Nat) : Str :=
  str "output/degree-" ++ slug ++ str "-" ++ natStr year ++ str ".adoc"

/-- The index fragment accumulated by `write_year` (`writer.rs` lines
37-46). -/
def indexEntry (name slug : Str) (year : Nat) (acc : Str) : Str :=
  acc ++ str "\n\n== " ++ name ++ str " (" ++ natStr year ++
    str ")\n\nxref:degree-" ++ slug ++ str "-" ++ natStr year ++
    str ".adoc[web] | link:degree-" ++ slug ++ str "-" ++ natStr year ++
    str ".pdf[PDF] | link:degree-" ++ slug ++ str "-" ++ natStr year ++
    str ".adoc[Asciidoc]\n\n"

/-- `analyze_and_write_degree` (`writer.rs` lines 51-58) applied to an
already scraped year map `deg`, given as its entry list in the `HashMap`'s
arbitrary iteration order. Returns the `(path, content)` document writes in
the order `write_year` performs them, together with the accumulated index
content the fold returns. -/
def analyze_and_write_degree (name slug : Str) (deg : List (Nat × Str)) :
    List (Str × Str) × Str :=
  let entries := sortByKey deg
  (entries.map (fun yc => (yearFile slug yc.1, yc.2)),
   entries.foldl (fun acc yc => indexEntry name slug yc.1 acc) [])

/-! ## Definitions stated from the spec's words, for comparison -/

/-- The slug pipeline as §4.1 of the spec words it: remove the connector
phrases and the `Magistrale`/`Master` tokens, lowercase the result unless
the code is the hardcoded engineering exception `9254/000`, then replace
the remaining spaces, with `-` for the hardcoded AI exception `9063/000`
and with nothing otherwise. -/
def slug_spec (name code : Str) : Str :=
  let removed := slugRemove name
  let cased :=
    if code = str "9254/000" then removed else toLowercase removed
  if code = str "9063/000" then replaceAll cased (str " ") (str "-")
  else replaceAll cased (str " ") (str "")

/-! ## Concrete inputs used by the claims -/

/-- The description block of the spec's worked boundary-extraction example
(§8). -/
def exampleDesc : Str :=
  str "Intro text.\nLearning outcomes\nBody here.\nTeaching\nFooter."

/-- Strict key order on year-map entries, used to see that a sort by year
of entries with pairwise distinct years is unique. -/
def keyLT (a b : Nat × Str) : Prop := a.1 < b.1

instance : IsAntisymm (Nat × Str) keyLT :=
  ⟨fun _ _ h h2 => (Nat.lt_asymm h h2).elim⟩

/-! ## Helper lemmas -/

/-- If every matching entry of the table carries the marker `m` and some
entry matches, then `m` is selected, whatever the iteration order. -/
theorem selectedMarker_eq_of (t : List (Str × Str)) (title m : Str)
    (h1 : ∀ p ∈ t, containsSub title p.1 = true → p.2 = m)
    (h2 : ∃ p ∈ t, containsSub title p.1 = true) :
    selectedMarker t title = some m := by
  unfold selectedMarker
  cases hf : t.find? (fun p => containsSub title p.1) with
  | none =>
    obtain ⟨p, hp, hc⟩ := h2
    rw [List.find?_eq_none] at hf
    exact absurd hc (by simpa using hf p hp)
  | some q =>
    have hq := List.find?_some hf
    have hqm := List.mem_of_find?_eq_some hf
    simp [h1 q hqm (by simpa using hq)]

/-- Sorting the entry list of a year map by key yields the same list for
any two iteration orders, as long as the keys are pairwise distinct. -/
theorem sortByKey_perm_eq (l₁ l₂ : List (Nat × Str)) (hp : l₁.Perm l₂)
    (hn : (l₁.map Prod.fst).Nodup) : sortByKey l₁ = sortByKey l₂ := by
  have hp₁ : List.Perm (sortByKey l₁) l₁ := List.perm_insertionSort keyLE l₁
  have hp₂ : List.Perm (sortByKey l₂) l₂ := List.perm_insertionSort keyLE l₂
  have hn₂ : (l₂.map Prod.fst).Nodup := ((hp.map Prod.fst).nodup_iff).mp hn
  have hlt : ∀ (l : List (Nat × Str)), (l.map Prod.fst).Nodup →
      List.Sorted keyLT (sortByKey l) := by
    intro l hnd
    have hs : List.Sorted keyLE (sortByKey l) :=
      List.sorted_insertionSort keyLE l
    have hnd' : ((sortByKey l).map Prod.fst).Nodup :=
      (((List.perm_insertionSort keyLE l).map Prod.fst).nodup_iff).mpr hnd
    have hne : (sortByKey l).Pairwise (fun a b => a.1 ≠ b.1) :=
      List.pairwise_map.mp hnd'
    exact (hs.and hne).imp (fun h => Nat.lt_of_le_of_ne h.1 h.2)
  exact List.eq_of_perm_of_sorted (hp₁.trans (hp.trans hp₂.symm))
    (hlt l₁ hn) (hlt l₂ hn₂)

/-- C1: on the spec's worked example the claim fails: the extraction of
`get_desc_teaching_page` keeps the start marker itself (Rust `find` returns
the index of the beginning of the match) and the two-character back-off
chops the final period, so the raw body is neither `"\nBody here.\n"` nor
does the result normalise to `"Body here."`. -/
theorem c1_boundary_example_refuted :
    chosenEnd DESC_END_MARKER (str "Numerical Computing") exampleDesc = some 41
    ∧ substringL exampleDesc (descStart exampleDesc) (41 - 2) ≠ str "\nBody here.\n"
    ∧ extractCore DESC_END_MARKER (str "Numerical Computing") exampleDesc ≠ .ok (str "Body here.") := by
  decide

/-- C1 (amended): on the example block with chosen end marker `"Teaching"`,
the start boundary is the index 12 of the beginning of the match of
`"Learning outcomes"`, the end boundary is the marker index 41 minus 2, the
raw body is `"Learning outcomes\nBody here"`, and normalisation yields
`"Learning outcomes\n\nBody here"`. -/
theorem c1_boundary_example_amended :
    descStart exampleDesc = 12
    ∧ chosenEnd DESC_END_MARKER (str "Numerical Computing") exampleDesc = some 41
    ∧ substringL exampleDesc 12 (41 - 2) = str "Learning outcomes\nBody here"
    ∧ normalizeBody (str "Learning outcomes\nBody here") = str "Learning outcomes\n\nBody here"
    ∧ extractCore DESC_END_MARKER (str "Numerical Computing") exampleDesc
        = .ok (str "Learning outcomes\n\nBody here") := by
  decide

/-- C2: the claim fails in the wildcard-fallback path: for a title no
pattern matches and a description not containing the wildcard marker
`"Readings"`, the `backup` closure yields no index at all (it has no
default) and extraction fails with the no-end-marker error instead of
defaulting to the end of the block. -/
theorem c2_wildcard_missing_marker_refuted :
    containsSub (str "Hello world") (str "Readings") = false
    ∧ extractCore DESC_END_MARKER (str "Algebra") (str "Hello world")
        = .error .noEndMarker := by
  decide

/-- C2 (amended): the end boundary defaults to the end of the description
block only when the marker was selected by a matching pattern of the table:
there, a missing marker makes `find` fall back to the block's length and
extraction succeeds, provided the block holds at least 2 characters (the
two-character back-off underflows otherwise). In the wildcard-fallback path
a missing marker is an error (previous theorem). -/
theorem c2_end_default_amended (table : List (Str × Str)) (title desc : Str)
    (p : Str × Str)
    (h1 : table.find? (fun q => containsSub title q.1) = some p)
    (h2 : rustFind desc p.2 = none) :
    chosenEnd table title desc = some desc.length
    ∧ (2 ≤ desc.length →
        extractCore table title desc
          = .ok (normalizeBody (substringL desc (descStart desc) (desc.length - 2)))) := by
  have hend : chosenEnd table title desc = some desc.length := by
    simp [chosenEnd, h1, h2, rustFind] at *
    simp [h1, h2]
  refine ⟨hend, fun hlen => ?_⟩
  simp [extractCore, hend, usizeSub, hlen]

/-- C2 (amended) at a concrete input: the title `"Numerical Computing"`
selects the marker `"Teaching"`, absent from the block, so the boundary
defaults to the block's length 23 and extraction succeeds. -/
theorem c2_end_default_amended_witness :
    chosenEnd DESC_END_MARKER (str "Numerical Computing") (str "Learning outcomes: body") = some 23
    ∧ extractCore DESC_END_MARKER (str "Numerical Computing") (str "Learning outcomes: body")
        = .ok (str "Learning outcomes: bo") := by
  have h := c2_end_default_amended DESC_END_MARKER (str "Numerical Computing")
    (str "Learning outcomes: body") (str "Numerical Computing", str "Teaching")
    (by decide) (by decide)
  exact ⟨h.1, by simpa using h.2 (by decide)⟩

/-- C10: the claim fails: when the chosen end marker occurs at character
index 0 of the description block, the `usize` subtraction `f? - 2`
underflows — an arithmetic overflow, a panic under overflow checks (the
default debug profile) — so the boundary computation is not well-defined
there. -/
theorem c10_subtraction_underflow :
    chosenEnd DESC_END_MARKER (str "Numerical Computing")
      (str "Teaching: Learning outcomes follow") = some 0
    ∧ extractCore DESC_END_MARKER (str "Numerical Computing")
        (str "Teaching: Learning outcomes follow") = .error .subtractionOverflow := by
  decide

/-- C10 (amended): the boundary computation is total and free of the
underflow whenever the chosen end index is at least 2, in which case a
normalised description is returned; when the chosen index is 0 or 1 the
subtraction underflows (modelled as the overflow error; a panic under
overflow checks, a wrapped-and-clamped bound without); when no end
boundary is chosen the no-end-marker error is returned. These three cases
are exhaustive. -/
theorem c10_boundary_totality_amended (table : List (Str × Str))
    (title desc : Str) :
    (∀ e, chosenEnd table title desc = some e → 2 ≤ e →
      extractCore table title desc
        = .ok (normalizeBody (substringL desc (descStart desc) (e - 2))))
    ∧ (∀ e, chosenEnd table title desc = some e → e < 2 →
      extractCore table title desc = .error .subtractionOverflow)
    ∧ (chosenEnd table title desc = none →
      extractCore table title desc = .error .noEndMarker) := by
  refine ⟨fun e he hge => ?_, fun e he hlt => ?_, fun hn => ?_⟩
  · simp [extractCore, he, usizeSub, hge]
  · simp [extractCore, he, usizeSub, Nat.not_le_of_lt hlt]
  · simp [extractCore, hn]

/-- C10 (amended) at concrete inputs: an end marker at index 18 yields a
description, one at index 0 the overflow error, and a wildcard-free table
with no matching pattern the no-end-marker error. -/
theorem c10_boundary_totality_amended_witness :
    extractCore DESC_END_MARKER (str "History of Informatics")
        (str "Learning outcomes\nOffice hours")
      = .ok (normalizeBody (substringL (str "Learning outcomes\nOffice hours") 0 16))
    ∧ extractCore DESC_END_MARKER (str "History of Informatics")
        (str "Office: Learning outcomes") = .error .subtractionOverflow
    ∧ extractCore [(str "A", str "B")] (str "title") (str "text")
        = .error .noEndMarker := by
  refine ⟨?_, ?_, ?_⟩
  · have h := (c10_boundary_totality_amended DESC_END_MARKER
      (str "History of Informatics") (str "Learning outcomes\nOffice hours")).1
      18 (by decide) (by decide)
    simpa using h
  · exact (c10_boundary_totality_amended DESC_END_MARKER
      (str "History of Informatics") (str "Office: Learning outcomes")).2.1
      0 (by decide) (by decide)
  · exact (c10_boundary_totality_amended [(str "A", str "B")] (str "title")
      (str "text")).2.2 (by decide)

/-- The probed window in closed form, for any realistic clock year. -/
theorem degreeStructureYears_eq (year month : Nat) (hy : 5 ≤ year) :
    degreeStructureYears year month =
      [current_academic_year year month - 4,
       current_academic_year year month - 3,
       current_academic_year year month - 2] := by
  have hA : 4 ≤ current_academic_year year month := by
    unfold current_academic_year; split <;> omega
  simp only [degreeStructureYears, rustRange, YEARS_PER_DEGREE]
  have e2 : current_academic_year year month - 1 -
      (current_academic_year year month - 1 - 3) = 3 := by omega
  rw [e2]
  simp only [List.range']
  simp only [List.cons.injEq, and_true]
  omega

/-- C3: for every system date (any month, any clock year large enough for
the `u32` arithmetic not to underflow, which every real date satisfies),
the probed years are exactly the three academic years `Y-4`, `Y-3`, `Y-2`
for the current academic year `Y`; neither `Y` nor `Y-1` is probed; `Y` is
the calendar year from September on and the previous calendar year before;
and crossing the September boundary shifts the whole window by exactly one
year. -/
theorem c3_scraping_window (year month : Nat) (hy : 5 ≤ year) :
    degreeStructureYears year month =
      [current_academic_year year month - 4,
       current_academic_year year month - 3,
       current_academic_year year month - 2]
    ∧ current_academic_year year month ∉ degreeStructureYears year month
    ∧ current_academic_year year month - 1 ∉ degreeStructureYears year month
    ∧ current_academic_year year 9 = year
    ∧ current_academic_year year 8 = year - 1
    ∧ degreeStructureYears year 9 =
        (degreeStructureYears year 8).map (fun n => n + 1) := by
  have hA : 4 ≤ current_academic_year year month := by
    unfold current_academic_year; split <;> omega
  have h1 := degreeStructureYears_eq year month hy
  refine ⟨h1, ?_, ?_, by simp [current_academic_year], by simp [current_academic_year], ?_⟩
  · rw [h1]; simp; omega
  · rw [h1]; simp; omega
  · rw [degreeStructureYears_eq year 9 hy, degreeStructureYears_eq year 8 hy]
    simp only [current_academic_year, List.map]
    norm_num
    omega

/-- C3 at a concrete date (October 2025): the window is 2021-2023, the
current academic year 2025 and its predecessor 2024 are not probed, and the
window for September 2025 is the August 2025 window shifted by one. -/
theorem c3_scraping_window_witness :
    degreeStructureYears 2025 10 = [2021, 2022, 2023]
    ∧ 2025 ∉ degreeStructureYears 2025 10
    ∧ 2024 ∉ degreeStructureYears 2025 10
    ∧ degreeStructureYears 2025 9 =
        (degreeStructureYears 2025 8).map (fun n => n + 1) := by
  have h := c3_scraping_window 2025 10 (by decide)
  exact ⟨by simpa using h.1, by simpa using h.2.1, by simpa using h.2.2.1,
    h.2.2.2.2.2⟩

/-- C4: (1) for the title `"History of Informatics and Computer Science"`
the selected end marker is `"Office"` under every iteration order of the
`HashMap`-backed table — a matching non-wildcard pattern wins over the
wildcard; (2) for every title no non-wildcard pattern matches, the wildcard
entry's marker `"Readings"` is selected; (3) with no wildcard entry and no
matching pattern, extraction fails with the no-end-marker configuration
error instead of degrading silently. -/
theorem c4_marker_selection :
    (∀ t, List.Perm t DESC_END_MARKER →
      selectedMarker t (str "History of Informatics and Computer Science")
        = some (str "Office"))
    ∧ (∀ title : Str, containsSub title (str "Numerical Computing") = false →
        containsSub title (str "History of Informatics") = false →
        selectedMarker DESC_END_MARKER title = some (str "Readings"))
    ∧ (∀ (table : List (Str × Str)) (title desc : Str),
        (∀ p ∈ table, containsSub title p.1 = false) →
        (∀ p ∈ table, p.1 ≠ str "*") →
        extractCore table title desc = .error .noEndMarker) := by
  refine ⟨fun t ht => ?_, fun title h1 h2 => ?_, fun table title desc h1 h2 => ?_⟩
  · apply selectedMarker_eq_of
    · intro p hp hc
      exact (show ∀ q ∈ DESC_END_MARKER,
          containsSub (str "History of Informatics and Computer Science") q.1 = true →
          q.2 = str "Office" by decide) p (ht.mem_iff.mp hp) hc
    · exact ⟨(str "History of Informatics", str "Office"),
        ht.mem_iff.mpr (by decide), by decide⟩
  · unfold selectedMarker DESC_END_MARKER
    rw [List.find?_cons_of_neg _ (by simp [h1]),
      List.find?_cons_of_neg _ (by simp [h2])]
    cases hstar : containsSub title (str "*") with
    | true =>
      rw [List.find?_cons_of_pos _ (by simpa using hstar)]
    | false =>
      rw [List.find?_cons_of_neg _ (by simp [hstar]), List.find?_nil]
      decide
  · have hf : table.find? (fun p => containsSub title p.1) = none :=
      List.find?_eq_none.mpr (fun p hp => by simp [h1 p hp])
    have hs : table.find? (fun p => p.1 = str "*") = none :=
      List.find?_eq_none.mpr (fun p hp => by simp [h2 p hp])
    simp [extractCore, chosenEnd, hf, lookupStar, hs]

/-- C4 at concrete inputs: the canonical iteration order selects
`"Office"` for the history title; a title matching no pattern selects
`"Readings"`; a wildcard-free one-entry table with no match errors out. -/
theorem c4_marker_selection_witness :
    selectedMarker DESC_END_MARKER
        (str "History of Informatics and Computer Science") = some (str "Office")
    ∧ selectedMarker DESC_END_MARKER (str "Linear Algebra") = some (str "Readings")
    ∧ extractCore [(str "A", str "B")] (str "x") (str "y") = .error .noEndMarker :=
  ⟨c4_marker_selection.1 DESC_END_MARKER (List.Perm.refl _),
   c4_marker_selection.2.1 (str "Linear Algebra") (by decide) (by decide),
   c4_marker_selection.2.2 [(str "A", str "B")] (str "x") (str "y")
     (by decide) (by decide)⟩

/-- C5: the claim fails: for a course whose detail link is present but
equal to the empty string, `get_eng_url` succeeds vacuously with the empty
string (even under an always-failing language oracle, i.e. without
fetching), and the failure eventually reported is the
cannot-get-description warning produced when fetching the empty teaching
URL — not the missing-link failure the claim asserts. -/
theorem c5_empty_link_refuted :
    get_eng_url (fun _ => .error (str "net down")) [] = .ok []
    ∧ render_course (fun _ => .error (str "net down"))
        (fun _ => .error (str "relative URL without a base"))
        (str "informatica") 2022 (some [])
      = .error (.cannotGetDescription
          (.fetchFailed (str "relative URL without a base")))
    ∧ (Except.error (.cannotGetDescription
          (.fetchFailed (str "relative URL without a base")))
        : Except CourseFailure Str) ≠ .error .missingLink := by
  decide

/-- C5 (amended): a course with an *absent* anchor fails immediately with
the missing-link failure and no oracle is consulted; a course whose detail
link is the *empty string* passes the English-URL step vacuously (`Ok("")`,
independent of the language oracle, hence without fetching), slices the
empty teaching URL out of it, and then fails with whatever error fetching
the empty URL produces (in `reqwest`, an invalid-URL error raised before
any network contact), reported as a cannot-get-description failure; the
course is skipped in both cases. -/
theorem c5_empty_link_amended
    (fetchLang fetchLang2 : Str → Except Str (Option Str))
    (fetchPage : Str → Except Str PageData) (slug : Str) (year : Nat)
    (e : Str) (he : fetchPage [] = .error e) :
    get_eng_url fetchLang [] = .ok []
    ∧ get_eng_url fetchLang [] = get_eng_url fetchLang2 []
    ∧ teachingUrlOf [] = []
    ∧ render_course fetchLang fetchPage slug year (some [])
        = .error (.cannotGetDescription (.fetchFailed e))
    ∧ render_course fetchLang fetchPage slug year none
        = .error .missingLink := by
  refine ⟨rfl, rfl, rfl, ?_, rfl⟩
  simp [render_course, get_desc_teaching_page, get_eng_url,
    show teachingUrlOf [] = [] from rfl, he]

/-- C5 (amended) at a concrete input: an oracle failing on the empty URL
with an invalid-URL error. -/
theorem c5_empty_link_amended_witness :
    get_eng_url (fun _ => .ok none) [] = .ok []
    ∧ render_course (fun _ => .ok none)
        (fun u => if u.isEmpty then .error (str "builder error") else .ok ⟨none, none⟩)
        (str "s") 1 (some [])
      = .error (.cannotGetDescription (.fetchFailed (str "builder error")))
    ∧ render_course (fun _ => .ok none)
        (fun u => if u.isEmpty then .error (str "builder error") else .ok ⟨none, none⟩)
        (str "s") 1 none
      = .error .missingLink := by
  have h := c5_empty_link_amended (fun _ => .ok none) (fun _ => .error (str "x"))
    (fun u => if u.isEmpty then .error (str "builder error") else .ok ⟨none, none⟩)
    (str "s") 1 (str "builder error") (by decide)
  exact ⟨h.1, h.2.2.2.1, h.2.2.2.2⟩

/-- C6: the translation fixup of `render_description` is the left fold of
single-rule substring replacement over the ordered rule table, each rule
acting on the cumulative output of the previous one; on the rule table
`[("A" → "B"), ("B" → "C")]` and the input `"A"` it yields `"C"`, not
`"B"`. -/
theorem c6_translation_fixup_fold :
    (∀ (r : Str × Str) (rs : List (Str × Str)) (s : Str),
      applyRules (r :: rs) s = applyRules rs (replace s r))
    ∧ (∀ d : Str, render_description d
        = applyRules MISSING_TRANSLATIONS (str "\n" ++ d))
    ∧ applyRules [(str "A", str "B"), (str "B", str "C")] (str "A") = str "C"
    ∧ applyRules [(str "A", str "B"), (str "B", str "C")] (str "A") ≠ str "B" :=
  ⟨fun _ _ _ => rfl, fun _ => rfl, by decide, by decide⟩

/-- C7: for every seed name and code, the inferred level is `"magistrale"`
exactly when the name contains `"Magistrale"` or `"Master"` (and
`"laurea"` exactly otherwise), and the computed site slug agrees with the
spec's description of the pipeline: connector phrases and tokens removed,
lowercased unless the code is the hardcoded engineering exception
`9254/000`, remaining spaces turned into `"-"` for the hardcoded AI
exception `9063/000` and removed otherwise. -/
theorem c7_level_and_slug (name code : Str) :
    (name_to_level name = str "magistrale" ↔
      (containsSub name (str "Magistrale") = true
        ∨ containsSub name (str "Master") = true))
    ∧ (name_to_level name = str "laurea" ↔
      ¬(containsSub name (str "Magistrale") = true
        ∨ containsSub name (str "Master") = true))
    ∧ name_and_code_to_slug name code = slug_spec name code := by
  refine ⟨?_, ?_, ?_⟩
  · cases h1 : containsSub name (str "Magistrale") <;>
      cases h2 : containsSub name (str "Master") <;>
      simp [name_to_level, h1, h2]
    all_goals decide
  · cases h1 : containsSub name (str "Magistrale") <;>
      cases h2 : containsSub name (str "Master") <;>
      simp [name_to_level, h1, h2]
    all_goals decide
  · have hne : ¬((str "9254/000" : Str) = str "9063/000") := by decide
    by_cases hA : code = str "9254/000" <;> by_cases hB : code = str "9063/000" <;>
      simp [name_and_code_to_slug, slug_spec, to_lowercase_maybe, hA, hB, hne]

/-- C7 at a concrete seed: the AI Master's programme. -/
theorem c7_level_and_slug_witness :
    name_to_level (str "Artificial Intelligence Master") = str "magistrale"
    ∧ name_and_code_to_slug (str "Artificial Intelligence Master")
        (str "9063/000")
      = slug_spec (str "Artificial Intelligence Master") (str "9063/000") := by
  have h := c7_level_and_slug (str "Artificial Intelligence Master")
    (str "9063/000")
  exact ⟨h.1.mpr (by decide), h.2.2⟩

/-- C8: a seed record with an empty `id`, `name` or `code` produces no
`Degree` — and does so independently of the scraping oracle, i.e. before
any network activity — while `to_degrees` converts exactly the records
whose three fields are all non-empty. -/
theorem c8_seed_validation (fetch fetch2 : Str → Str → List (Nat × Str))
    (p : Predegree) (ps : List Predegree) :
    (parse_degree fetch p = none ↔
      (p.name.isEmpty || p.id.isEmpty || p.code.isEmpty) = true)
    ∧ ((p.name.isEmpty || p.id.isEmpty || p.code.isEmpty) = true →
      parse_degree fetch p = parse_degree fetch2 p)
    ∧ to_degrees fetch ps =
        (ps.filter
          (fun q => !(q.name.isEmpty || q.id.isEmpty || q.code.isEmpty))).map
          (fun q =>
            { name := q.name, slug := q.id,
              year_urls := fetch (name_to_level q.name)
                (name_and_code_to_slug q.name q.code) }) := by
  refine ⟨?_, fun h => by simp [parse_degree, h], ?_⟩
  · cases hc : (p.name.isEmpty || p.id.isEmpty || p.code.isEmpty) <;>
      simp [parse_degree, hc]
  · induction ps with
    | nil => rfl
    | cons q qs ih =>
      cases hc : (q.name.isEmpty || q.id.isEmpty || q.code.isEmpty) with
      | true =>
        have hp : parse_degree fetch q = none := by simp [parse_degree, hc]
        have h3 : (q.name = [] ∨ q.id = []) ∨ q.code = [] := by simpa using hc
        rcases h3 with (h | h) | h <;>
          simpa [to_degrees, List.filterMap_cons, List.filter_cons, hp, h]
            using ih
      | false =>
        have h3 : (¬(q.name = []) ∧ ¬(q.id = [])) ∧ ¬(q.code = []) := by
          simpa using hc
        have hp : parse_degree fetch q = some
            { name := q.name, slug := q.id,
              year_urls := fetch (name_to_level q.name)
                (name_and_code_to_slug q.name q.code) } := by
          simp [parse_degree, hc]
        simpa [to_degrees, List.filterMap_cons, List.filter_cons, hp,
          h3.1.1, h3.1.2, h3.2] using ih

/-- C8 at concrete inputs: a record with an empty name is dropped under two
different oracles; a mixed list keeps exactly its valid record. -/
theorem c8_seed_validation_witness :
    parse_degree (fun _ _ => []) ⟨str "id", str "", str "123⁄000"⟩
      = parse_degree (fun _ _ => [(1, str "u")]) ⟨str "id", str "", str "123⁄000"⟩
    ∧ to_degrees (fun _ _ => [])
        [⟨str "id", str "", str "123⁄000"⟩, ⟨str "i", str "N", str "c"⟩]
      = [{ name := str "N", slug := str "i",
           year_urls := (fun (_ _ : Str) => ([] : List (Nat × Str)))
             (name_to_level (str "N"))
             (name_and_code_to_slug (str "N") (str "c")) }] := by
  have h1 := (c8_seed_validation (fun _ _ => []) (fun _ _ => [(1, str "u")])
    ⟨str "id", str "", str "123⁄000"⟩ []).2.1 (by decide)
  have h2 := (c8_seed_validation (fun _ _ => []) (fun _ _ => [])
    ⟨str "x", str "x", str "x"⟩
    [⟨str "id", str "", str "123⁄000"⟩, ⟨str "i", str "N", str "c"⟩]).2.2
  exact ⟨h1, by simpa using h2⟩

/-- C9: `analyze_and_write_degree` hands the years to the document sink in
ascending numeric order, produces the same document writes and the same
index content for any two iteration orders of the input year map (whose
keys, being `HashMap` keys, are pairwise distinct), and — being a pure
function of the entry list — is deterministic on identical input. -/
theorem c9_assembler_order (name slug : Str) (l₁ l₂ : List (Nat × Str))
    (hp : List.Perm l₁ l₂) (hn : (l₁.map Prod.fst).Nodup) :
    analyze_and_write_degree name slug l₁ = analyze_and_write_degree name slug l₂
    ∧ List.Sorted (fun a b => a ≤ b) ((sortByKey l₁).map Prod.fst)
    ∧ ((analyze_and_write_degree name slug l₁).1 =
        (sortByKey l₁).map (fun yc => (yearFile slug yc.1, yc.2))) := by
  refine ⟨?_, ?_, rfl⟩
  · unfold analyze_and_write_degree
    rw [sortByKey_perm_eq l₁ l₂ hp hn]
  · have hs : List.Sorted keyLE (sortByKey l₁) :=
      List.sorted_insertionSort keyLE l₁
    exact List.pairwise_map.mpr hs

/-- C9 at a concrete two-year map handed over in the two possible
iteration orders. -/
theorem c9_assembler_order_witness :
    analyze_and_write_degree (str "Informatica") (str "informatica")
        [(2022, str "b"), (2021, str "a")]
      = analyze_and_write_degree (str "Informatica") (str "informatica")
        [(2021, str "a"), (2022, str "b")]
    ∧ List.Sorted (fun a b => a ≤ b)
        ((sortByKey [(2022, str "b"), (2021, str "a")]).map Prod.fst) := by
  have h := c9_assembler_order (str "Informatica") (str "informatica")
    [(2022, str "b"), (2021, str "a")] [(2021, str "a"), (2022, str "b")]
    (List.Perm.swap (2021, str "a") (2022, str "b") [])
    (by decide)
  exact ⟨h.1, h.2.1⟩
